import Mathlib

/-!
Shallow embedding of the URL-shortening core of the fx-profiler-server
repository: the token generator (`generateTokenForProfile`), the GCS storage
abstraction with its real and mock backends (`RealGcsStorage`,
`MockGcsStorage`, `create`), and the shorten/expand orchestration logic
(`shortenUrlGcs`, `expandUrlGcs`).

Modelling conventions:
- JavaScript strings are modelled as Lean `String` (sequences of characters);
  byte buffers holding text round-trip through `toString`, so `Buffer`
  contents are modelled as `String` as well.
- Raw random bytes are modelled as `Nat` values below 256, drawn from an
  arbitrary byte source `src : Nat → Nat` (`src i` is the i-th byte produced
  by `crypto.randomBytes`).
- The GCS bucket is modelled as an association list from object names to
  object contents; later writes shadow earlier ones.
- Promise rejections / thrown errors are modelled with `Except GcsError`.
- `expandUrlGcs` additionally returns the list of keys it reads from storage,
  so that "no storage read is performed" is expressible as that list being
  empty.
-/

namespace FxProfiler

/-- Errors surfaced by the storage layer and the shorten/expand logic.
`invalidToken` models the `Error('Invalid URL ...')` thrown by `expandUrlGcs`;
`notFound` models the 404-class rejection of `file.download()` on a missing
object; `configError` models the `Error('The bucket name should not be
empty')` thrown by `create`; `noURL` models the `throw "No URL"` of the mock
backend's `getPostUploadURLForFile`; `typeError` models the JavaScript
TypeError that reading `token.length` of `undefined` would raise in the
`token === undefined` branch of `expandUrlGcs`. -/
inductive GcsError where
  | invalidToken (token : String) : GcsError
  | notFound (key : String) : GcsError
  | configError (msg : String) : GcsError
  | noURL : GcsError
  | typeError : GcsError
deriving DecidableEq

/-- JavaScript semantics of `str.split(sep)` for a one-character separator,
over the character list of the string: every occurrence of the separator
splits, empty segments are kept, and the empty string yields `[[]]` (a
one-element array holding the empty string), so the result is never the
empty array. -/
def splitOnChar (c : Char) : List Char → List (List Char)
  | [] => [[]]
  | a :: rest =>
    if a = c then
      [] :: splitOnChar c rest
    else
      match splitOnChar c rest with
      | [] => [[a]]
      | h :: t => (a :: h) :: t

theorem splitOnChar_ne_nil (c : Char) (l : List Char) : splitOnChar c l ≠ [] := by
  induction l with
  | nil => simp [splitOnChar]
  | cons a rest ih =>
    by_cases h : a = c
    · simp [splitOnChar, h]
    · simp only [splitOnChar, if_neg h]
      cases hr : splitOnChar c rest with
      | nil => simp
      | cons x xs => simp

theorem splitOnChar_eq_single (c : Char) (l : List Char) (h : c ∉ l) :
    splitOnChar c l = [l] := by
  induction l with
  | nil => rfl
  | cons a rest ih =>
    simp only [List.mem_cons, not_or] at h
    have ha : a ≠ c := fun e => h.1 e.symm
    simp [splitOnChar, if_neg ha, ih h.2]

theorem two_le_length_splitOnChar (c : Char) (l1 l2 : List Char) :
    2 ≤ (splitOnChar c (l1 ++ c :: l2)).length := by
  induction l1 with
  | nil =>
    have e : splitOnChar c (c :: l2) = [] :: splitOnChar c l2 := by
      simp [splitOnChar]
    rw [List.nil_append, e, List.length_cons]
    have h := List.length_pos.mpr (splitOnChar_ne_nil c l2)
    omega
  | cons a rest ih =>
    by_cases h : a = c
    · subst h
      have e : splitOnChar a (a :: (rest ++ a :: l2)) = [] :: splitOnChar a (rest ++ a :: l2) := by
        simp [splitOnChar]
      rw [List.cons_append, e, List.length_cons]
      have h2 := List.length_pos.mpr (splitOnChar_ne_nil a (rest ++ a :: l2))
      omega
    · simp only [List.cons_append, splitOnChar, if_neg h]
      cases hr : splitOnChar c (rest ++ c :: l2) with
      | nil => exact absurd hr (splitOnChar_ne_nil c _)
      | cons x xs =>
        rw [hr] at ih
        simpa using ih

theorem getLast?_splitOnChar_append (c : Char) (l1 l2 : List Char) :
    (splitOnChar c (l1 ++ c :: l2)).getLast? = (splitOnChar c l2).getLast? := by
  induction l1 with
  | nil =>
    simp only [List.nil_append, splitOnChar, if_pos rfl]
    cases hr : splitOnChar c l2 with
    | nil => exact absurd hr (splitOnChar_ne_nil c l2)
    | cons x xs => exact List.getLast?_cons_cons
  | cons a rest ih =>
    by_cases h : a = c
    · simp only [List.cons_append, splitOnChar, if_pos h]
      cases hr : splitOnChar c (rest ++ c :: l2) with
      | nil => exact absurd hr (splitOnChar_ne_nil c _)
      | cons x xs =>
        rw [hr] at ih
        rw [List.getLast?_cons_cons, ih]
    · simp only [List.cons_append, splitOnChar, if_neg h]
      cases hr : splitOnChar c (rest ++ c :: l2) with
      | nil => exact absurd hr (splitOnChar_ne_nil c _)
      | cons x xs =>
        have hlen := two_le_length_splitOnChar c rest l2
        rw [hr] at hlen ih
        cases xs with
        | nil => simp at hlen
        | cons y ys =>
          rw [List.getLast?_cons_cons, ← ih, List.getLast?_cons_cons]

theorem getLast?_isSome_of_ne_nil {α : Type} (l : List α) (h : l ≠ []) :
    ∃ x, l.getLast? = some x := by
  cases l with
  | nil => exact absurd rfl h
  | cons a as => exact ⟨_, List.getLast?_cons⟩

/-- Modelled from the spec: the repository imports its base-32 encoder
(`encode`, imported as `toBase32`) from `utils/base32`, a file that is not
part of the provided sources. The spec describes the encoding as: "encode the
raw bytes using a base-32-style alphabet (no padding characters), producing a
fixed-length text token (39 characters for 24 bytes under standard base32
encoding without padding)", with the guarantee that the "output alphabet is
restricted to characters safe for direct embedding in a URL path segment".
We fix a concrete 32-character URL-safe alphabet of lowercase letters and
digits (Crockford's base-32 alphabet, consistent with the `[a-z0-9]`-shaped
tokens the routes expect). -/
def base32Alphabet : List Char := "0123456789abcdefghjkmnpqrstvwxyz".toList

/-- The eight bits of one byte, most significant bit first. -/
def byteToBits (b : Nat) : List Bool :=
  [b.testBit 7, b.testBit 6, b.testBit 5, b.testBit 4,
   b.testBit 3, b.testBit 2, b.testBit 1, b.testBit 0]

/-- The bit stream of a byte sequence, most significant bit of each byte
first. -/
def bytesToBits : List Nat → List Bool
  | [] => []
  | b :: rest => byteToBits b ++ bytesToBits rest

/-- Groups a bit stream into 5-bit groups; the final incomplete group is
padded with zero bits on the right, as in standard base32 without padding
characters. -/
def chunks5 : List Bool → List (List Bool)
  | [] => []
  | [b1] => [[b1, false, false, false, false]]
  | [b1, b2] => [[b1, b2, false, false, false]]
  | [b1, b2, b3] => [[b1, b2, b3, false, false]]
  | [b1, b2, b3, b4] => [[b1, b2, b3, b4, false]]
  | b1 :: b2 :: b3 :: b4 :: b5 :: rest => [b1, b2, b3, b4, b5] :: chunks5 rest

/-- The value of a bit list read most significant bit first. -/
def bitsToNat : List Bool → Nat
  | [] => 0
  | b :: rest => (if b then 1 else 0) * 2 ^ rest.length + bitsToNat rest

/-- Modelled from the spec: standard base32 encoding without padding — the
bytes are read as a bit stream, grouped into 5-bit values (final group padded
with zero bits), each value indexing the 32-character alphabet. -/
def toBase32 (bytes : List Nat) : String :=
  String.mk ((chunks5 (bytesToBits bytes)).map fun ch => base32Alphabet.getD (bitsToNat ch) '0')

theorem chunks5_length (l : List Bool) : (chunks5 l).length = (l.length + 4) / 5 := by
  induction l using chunks5.induct <;> (simp [chunks5, *]; try omega)

theorem chunks5_mem_length (l : List Bool) (ch : List Bool) (h : ch ∈ chunks5 l) :
    ch.length = 5 := by
  induction l using chunks5.induct with
  | case1 => simp [chunks5] at h
  | case2 b1 => simp [chunks5] at h; subst h; rfl
  | case3 b1 b2 => simp [chunks5] at h; subst h; rfl
  | case4 b1 b2 b3 => simp [chunks5] at h; subst h; rfl
  | case5 b1 b2 b3 b4 => simp [chunks5] at h; subst h; rfl
  | case6 b1 b2 b3 b4 b5 rest ih =>
    simp only [chunks5, List.mem_cons] at h
    rcases h with h | h
    · subst h; rfl
    · exact ih h

theorem bitsToNat_lt (l : List Bool) : bitsToNat l < 2 ^ l.length := by
  induction l with
  | nil => simp [bitsToNat]
  | cons b rest ih =>
    simp only [bitsToNat, List.length_cons, pow_succ]
    by_cases hb : b <;> simp [hb] <;> omega

theorem bytesToBits_length (bs : List Nat) : (bytesToBits bs).length = 8 * bs.length := by
  induction bs with
  | nil => rfl
  | cons b rest ih =>
    simp only [bytesToBits, List.length_append, List.length_cons, ih]
    simp [byteToBits]
    ring

theorem getD_mem_of_lt {α : Type} (l : List α) (n : Nat) (d : α) (h : n < l.length) :
    l.getD n d ∈ l := by
  rw [List.getD_eq_getElem l d h]
  exact List.getElem_mem h

theorem toBase32_length (bytes : List Nat) :
    (toBase32 bytes).length = (8 * bytes.length + 4) / 5 := by
  show (String.mk _).length = _
  simp only [String.length, String.mk, List.length_map, chunks5_length, bytesToBits_length]

theorem toBase32_mem_alphabet (bytes : List Nat) (c : Char)
    (hc : c ∈ (toBase32 bytes).toList) : c ∈ base32Alphabet := by
  simp only [toBase32, String.toList, String.mk, List.mem_map] at hc
  obtain ⟨ch, hch, rfl⟩ := hc
  have h5 : ch.length = 5 := chunks5_mem_length _ ch hch
  have hlt : bitsToNat ch < 2 ^ ch.length := bitsToNat_lt ch
  rw [h5] at hlt
  have h32 : base32Alphabet.length = 32 := by decide
  exact getD_mem_of_lt base32Alphabet (bitsToNat ch) '0' (by norm_num at hlt; omega)

theorem slash_not_mem_toBase32 (bytes : List Nat) : '/' ∉ (toBase32 bytes).toList := by
  intro h
  have := toBase32_mem_alphabet bytes '/' h
  revert this
  decide

/-- The model of `crypto.randomBytes(n)`: n bytes drawn from an arbitrary
byte source, where `src i` is the i-th byte produced by the cryptographically
secure random source (reduced mod 256 since `randomBytes` yields bytes). -/
def randomBytes (n : Nat) (src : Nat → Nat) : List Nat :=
  (List.range n).map fun i => src i % 256

/-- The token generator (source lines 19–32): draws exactly 24 random bytes
and base32-encodes them. -/
def generateTokenForProfile (src : Nat → Nat) : String :=
  toBase32 (randomBytes 24 src)

/-- The contents of the GCS bucket, modelled as an association list from
object names (file paths) to object contents; later writes shadow earlier
ones. -/
abbrev Store : Type := List (String × String)

/-- Object lookup in the modelled bucket. -/
def Store.find : Store → String → Option String
  | [], _ => none
  | (k, v) :: rest, key => if key = k then some v else Store.find rest key

/-- The real backend's `readFile` (source lines 145–150): `file.download()`
resolves with the object's contents, and rejects with a NotFound-class error
when no object exists under the given path. -/
def RealGcsStorage.readFile (bucket : Store) (filePath : String) : Except GcsError String :=
  match Store.find bucket filePath with
  | some data => .ok data
  | none => .error (.notFound filePath)

/-- The eventual effect on the bucket of the real backend's
`getWriteStreamForFile` followed by `write(contents)` and `end()` (source
lines 106–127): the object named `filePath` holds `contents`. -/
def RealGcsStorage.writeFile (bucket : Store) (filePath : String) (contents : String) : Store :=
  (filePath, contents) :: bucket

/-- The mock backend's `ping` (source lines 157–159): always resolves. -/
def MockGcsStorage.ping : Except GcsError Unit := .ok ()

/-- The mock backend's `readFile` (source lines 179–181): always resolves
with an empty buffer, for every key. -/
def MockGcsStorage.readFile (_filePath : String) : Except GcsError String := .ok ""

/-- The mock backend's write sink (source lines 161–169): the `Writable`
returned by `getWriteStreamForFile` invokes the completion callback with no
error for every chunk and stores nothing (the class has no state). -/
def MockGcsStorage.sinkWrite (_chunk : String) : Except GcsError Unit := .ok ()

/-- The mock backend's `deleteFile` (source lines 175–177): always
resolves. -/
def MockGcsStorage.deleteFile (_filePath : String) : Except GcsError Unit := .ok ()

/-- The mock backend's `getPostUploadURLForFile` (source lines 171–173): the
promise executor throws `"No URL"`, so the returned promise always
rejects. -/
def MockGcsStorage.getPostUploadURLForFile (_filePath _origin : String) :
    Except GcsError String :=
  .error .noURL

/-- The fixed service origin hard-coded in `shortenUrlGcs` (source
line 46). -/
def shortUrlOrigin : String := "https://profiler-dot-unity-eng-arch-dev.uw.r.appspot.com"

/-- The shorten logic against the real backend (source lines 34–49), with the
write's eventual effect applied to the modelled bucket: generate a token,
write the long URL under `token ++ ".url"`, and return the short URL
`<origin>/s/<token>` together with the updated bucket. -/
def shortenUrlGcs (bucket : Store) (src : Nat → Nat) (longUrl : String) : Store × String :=
  let token := generateTokenForProfile src
  let filename := token ++ ".url"
  let bucket' := RealGcsStorage.writeFile bucket filename longUrl
  (bucket', shortUrlOrigin ++ "/s/" ++ token)

/-- The shorten logic against the mock backend (source lines 34–49 with the
mock storage): the sink discards the written long URL, so only the short URL
is produced and no state changes. -/
def shortenUrlGcsMock (src : Nat → Nat) (_longUrl : String) : String :=
  shortUrlOrigin ++ "/s/" ++ generateTokenForProfile src

/-- The expand logic (source lines 51–63), parameterised by the backend's
`readFile`. It extracts the final '/'-delimited segment
(`urlToExpand.split('/').pop()`), throws `Invalid URL` unless that segment
has length 39, and otherwise reads the object `token ++ ".url"`. The second
component of the result lists the keys read from storage during the call
(empty when the length check fails). The `.pop() === undefined` branch would
raise a TypeError in JavaScript (reading `.length` of `undefined`), modelled
by `typeError`. -/
def expandUrlGcs (readFile : String → Except GcsError String) (urlToExpand : String) :
    Except GcsError String × List String :=
  match (splitOnChar '/' urlToExpand.toList).getLast? with
  | none => (.error .typeError, [])
  | some tokenChars =>
    if (String.mk tokenChars).length ≠ 39 then
      (.error (.invalidToken (String.mk tokenChars)), [])
    else
      (readFile (String.mk tokenChars ++ ".url"), [String.mk tokenChars ++ ".url"])

/-- The expand logic instantiated with the real backend reading from the
modelled bucket. -/
def expandUrlGcsReal (bucket : Store) (urlToExpand : String) :
    Except GcsError String × List String :=
  expandUrlGcs (RealGcsStorage.readFile bucket) urlToExpand

/-- The final '/'-delimited segment of a string, i.e. what
`urlToExpand.split('/').pop()` extracts (the split is never empty, so the
default is never used). -/
def lastSegment (s : String) : List Char :=
  (splitOnChar '/' s.toList).getLastD []

/-- One observable step of `shortenUrlGcs`, used to state in which order the
call performs its effects relative to returning. -/
inductive ShortenStep where
  | awaitedRandomBytes (n : Nat) : ShortenStep
  | openedWriteStream (filePath : String) (alreadyGzipped : Bool) : ShortenStep
  | wroteChunk (chunk : String) : ShortenStep
  | endedStream : ShortenStep
  | awaitedWriteCompletion : ShortenStep
  | returned (shortUrl : String) : ShortenStep
deriving DecidableEq

/-- The sequence of effects performed by `shortenUrlGcs` (source lines
34–49), in program order: it awaits the 24 random bytes (line 38), opens the
write stream with `alreadyGzipped = false` (line 41), writes the long URL
(line 42), ends the stream (line 43) and returns the short URL (line 48).
The source contains no construct that waits on the stream after `end()` — no
`await` of a finish/error event — so no `awaitedWriteCompletion` step
occurs. -/
def shortenUrlGcsSteps (src : Nat → Nat) (longUrl : String) : List ShortenStep :=
  let token := generateTokenForProfile src
  [ .awaitedRandomBytes 24,
    .openedWriteStream (token ++ ".url") false,
    .wroteChunk longUrl,
    .endedStream,
    .returned (shortUrlOrigin ++ "/s/" ++ token) ]

/-- The configuration record consumed by the store factory (source lines
184–189). -/
structure GcsConfig where
  googleAuthenticationFilePath : String
  googleAuthJson : String
  gcsBucket : String

/-- How the real backend's `Storage` client was authenticated by `create`:
with credentials parsed from inline JSON that was first base64-decoded, with
credentials parsed from plain inline JSON, or with a key-file path. -/
inductive StorageAuth where
  | credentialsBase64 (payload : String) : StorageAuth
  | credentialsInline (json : String) : StorageAuth
  | keyFilename (path : String) : StorageAuth
deriving DecidableEq

/-- The observable outcome of the store factory. -/
inductive CreateResult where
  | mocked : CreateResult
  | real (auth : StorageAuth) (bucket : String) : CreateResult
  | configError (msg : String) : CreateResult
deriving DecidableEq

/-- JavaScript `s.startsWith(pre)`, over the character lists of the two
strings. -/
def jsStartsWith (s pre : String) : Bool := pre.toList.isPrefixOf s.toList

/-- JavaScript `s.slice(n)`: the string with its first n characters
removed. -/
def jsSlice (s : String) (n : Nat) : String := String.mk (s.toList.drop n)

/-- The store factory `create` (source lines 195–225): returns the mock
backend when the selector equals `'MOCKED'`; otherwise requires a non-empty
bucket name; then authenticates from `googleAuthJson` when it is non-empty
(JavaScript string truthiness), base64-decoding it first when it starts with
the literal `base64:` marker (`slice(7)` drops the marker), and falls back to
the credentials-file path otherwise. -/
def create (config : GcsConfig) : CreateResult :=
  if config.googleAuthenticationFilePath = "MOCKED" then
    .mocked
  else if config.gcsBucket = "" then
    .configError "The bucket name should not be empty"
  else if config.googleAuthJson ≠ "" then
    if jsStartsWith config.googleAuthJson "base64:" then
      .real (.credentialsBase64 (jsSlice config.googleAuthJson 7)) config.gcsBucket
    else
      .real (.credentialsInline config.googleAuthJson) config.gcsBucket
  else
    .real (.keyFilename config.googleAuthenticationFilePath) config.gcsBucket

theorem generateTokenForProfile_length (src : Nat → Nat) :
    (generateTokenForProfile src).length = 39 := by
  unfold generateTokenForProfile
  rw [toBase32_length]
  simp [randomBytes]

theorem generateTokenForProfile_mem_alphabet (src : Nat → Nat) (c : Char)
    (hc : c ∈ (generateTokenForProfile src).toList) : c ∈ base32Alphabet :=
  toBase32_mem_alphabet (randomBytes 24 src) c hc

theorem slash_not_mem_generateTokenForProfile (src : Nat → Nat) :
    '/' ∉ (generateTokenForProfile src).toList :=
  slash_not_mem_toBase32 (randomBytes 24 src)

theorem toList_append (s t : String) : (s ++ t).toList = s.toList ++ t.toList := by
  simp [String.toList, String.data_append]

theorem splitPop_shortUrl (token : String) (h : '/' ∉ token.toList) :
    (splitOnChar '/' (shortUrlOrigin ++ "/s/" ++ token).toList).getLast?
      = some token.toList := by
  have hd : "/s/".toList = ['/', 's', '/'] := by decide
  have e : (shortUrlOrigin ++ "/s/" ++ token).toList
      = (shortUrlOrigin.toList ++ ['/', 's']) ++ '/' :: token.toList := by
    rw [toList_append, toList_append, hd]
    simp
  rw [e, getLast?_splitOnChar_append, splitOnChar_eq_single '/' token.toList h]
  rfl

theorem expandUrlGcs_wellFormed (readFile : String → Except GcsError String)
    (token : String) (h39 : token.length = 39) (hs : '/' ∉ token.toList) :
    expandUrlGcs readFile (shortUrlOrigin ++ "/s/" ++ token)
      = (readFile (token ++ ".url"), [token ++ ".url"]) := by
  have hmk : String.mk token.toList = token := rfl
  simp only [expandUrlGcs, splitPop_shortUrl token hs, hmk, h39]
  simp

theorem expandUrlGcs_bareToken (readFile : String → Except GcsError String)
    (token : String) (h39 : token.length = 39) (hs : '/' ∉ token.toList) :
    expandUrlGcs readFile token
      = (readFile (token ++ ".url"), [token ++ ".url"]) := by
  have hmk : String.mk token.toList = token := rfl
  have hsplit : (splitOnChar '/' token.toList).getLast? = some token.toList := by
    rw [splitOnChar_eq_single '/' token.toList hs]
    rfl
  simp only [expandUrlGcs, hsplit, hmk, h39]
  simp

/-- C1: for every long URL string, with the real backend over the modelled
key-value bucket, expand applied to the short URL returned by shorten
returns exactly the original long URL (round-trip law). -/
theorem expand_shorten_roundTrip (bucket : Store) (src : Nat → Nat) (longUrl : String) :
    (expandUrlGcsReal (shortenUrlGcs bucket src longUrl).1
      (shortenUrlGcs bucket src longUrl).2).1 = .ok longUrl := by
  have h39 := generateTokenForProfile_length src
  have hs := slash_not_mem_generateTokenForProfile src
  show (expandUrlGcs _ _).1 = _
  simp only [shortenUrlGcs]
  rw [expandUrlGcs_wellFormed _ _ h39 hs]
  simp [RealGcsStorage.readFile, RealGcsStorage.writeFile, Store.find]

/-- C2: the token generator encodes exactly the 24 drawn random bytes
(base32, no padding), so every generated token has length exactly 39 and
consists only of characters of the URL-safe base-32 alphabet. -/
theorem generateTokenForProfile_spec (src : Nat → Nat) :
    generateTokenForProfile src = toBase32 (randomBytes 24 src)
      ∧ (randomBytes 24 src).length = 24
      ∧ (∀ b ∈ randomBytes 24 src, b < 256)
      ∧ (generateTokenForProfile src).length = 39
      ∧ (∀ c ∈ (generateTokenForProfile src).toList, c ∈ base32Alphabet) := by
  refine ⟨rfl, by simp [randomBytes], ?_, generateTokenForProfile_length src,
    fun c hc => generateTokenForProfile_mem_alphabet src c hc⟩
  intro b hb
  simp only [randomBytes, List.mem_map] at hb
  obtain ⟨i, _, rfl⟩ := hb
  exact Nat.mod_lt _ (by norm_num)

/-- C3: for every input string whose final '/'-delimited segment has a
length different from 39, expand fails with the invalid-token error and
performs no read against the mapping store — for every backend readFile. -/
theorem expandUrlGcs_invalidToken_noRead
    (readFile : String → Except GcsError String) (s : String)
    (h : (lastSegment s).length ≠ 39) :
    expandUrlGcs readFile s
      = (.error (.invalidToken (String.mk (lastSegment s))), []) := by
  obtain ⟨l, hl⟩ := getLast?_isSome_of_ne_nil _ (splitOnChar_ne_nil '/' s.toList)
  have hseg : lastSegment s = l := by
    unfold lastSegment
    rw [List.getLastD_eq_getLast?, hl]
    rfl
  rw [hseg] at h ⊢
  simp only [expandUrlGcs, hl]
  rw [if_pos (show (String.mk l).length ≠ 39 from h)]

/-- C3 witness: on a concrete URL whose final segment is the 5-character
string "short", expand fails with the invalid-token error and reads
nothing. -/
theorem expandUrlGcs_invalidToken_noRead_witness :
    (lastSegment "https://example.org/s/short").length ≠ 39
      ∧ expandUrlGcs MockGcsStorage.readFile "https://example.org/s/short"
          = (.error (.invalidToken (String.mk (lastSegment "https://example.org/s/short"))), []) :=
  ⟨by decide,
   expandUrlGcs_invalidToken_noRead MockGcsStorage.readFile "https://example.org/s/short"
     (by decide)⟩

/-- C4 counterexample: at a concrete input, the effect sequence of shorten
contains the step returning the short URL but no step awaiting the
completion (or failure) of the storage write: the short URL is returned
while the write may still be pending, refuting the claim that the write
completes or fails before the short URL is returned. -/
theorem shorten_no_write_await_counterexample :
    ShortenStep.awaitedWriteCompletion
        ∉ shortenUrlGcsSteps (fun _ => 0) "https://example.com/report/123"
      ∧ ShortenStep.returned
            (shortUrlOrigin ++ "/s/" ++ generateTokenForProfile (fun _ => 0))
          ∈ shortenUrlGcsSteps (fun _ => 0) "https://example.com/report/123" := by
  constructor
  · decide
  · simp [shortenUrlGcsSteps]

/-- C4 amended: within one shorten call the write is initiated — the write
stream receives the long URL and is ended — before the short URL is
returned, and the return is the last step; but the call never awaits the
write's completion, so the short URL can be returned while the write is
still pending and a write failure goes unobserved. -/
theorem shorten_write_initiated_before_return (src : Nat → Nat) (longUrl : String) :
    (∃ pre,
        shortenUrlGcsSteps src longUrl
          = pre ++ [ShortenStep.returned
              (shortUrlOrigin ++ "/s/" ++ generateTokenForProfile src)]
          ∧ ShortenStep.wroteChunk longUrl ∈ pre
          ∧ ShortenStep.endedStream ∈ pre)
      ∧ ShortenStep.awaitedWriteCompletion ∉ shortenUrlGcsSteps src longUrl := by
  refine ⟨⟨[.awaitedRandomBytes 24,
      .openedWriteStream (generateTokenForProfile src ++ ".url") false,
      .wroteChunk longUrl, .endedStream], rfl, by simp, by simp⟩, ?_⟩
  simp [shortenUrlGcsSteps]

/-- C5: shorten derives the storage key as the generated token concatenated
with ".url", opens the write stream with the pre-compressed flag false,
writes the long URL, returns the short URL formed as the fixed origin
followed by "/s/" followed by the token, and the long URL becomes readable
in the modelled bucket under that key. -/
theorem shortenUrlGcs_key_flag_and_shortUrl (bucket : Store) (src : Nat → Nat)
    (longUrl : String) :
    ShortenStep.openedWriteStream (generateTokenForProfile src ++ ".url") false
        ∈ shortenUrlGcsSteps src longUrl
      ∧ ShortenStep.wroteChunk longUrl ∈ shortenUrlGcsSteps src longUrl
      ∧ (shortenUrlGcs bucket src longUrl).2
          = shortUrlOrigin ++ "/s/" ++ generateTokenForProfile src
      ∧ Store.find (shortenUrlGcs bucket src longUrl).1
            (generateTokenForProfile src ++ ".url") = some longUrl := by
  refine ⟨by simp [shortenUrlGcsSteps], by simp [shortenUrlGcsSteps], rfl, ?_⟩
  simp [shortenUrlGcs, RealGcsStorage.writeFile, Store.find]

/-- C6: the factory returns the mock backend exactly when the selector
configuration value equals 'MOCKED'; when the real backend is requested and
the bucket name is empty it fails with a configuration error; and non-empty
inline JSON credentials take precedence over the credentials-file path,
base64-decoded first when they carry the literal 'base64:' marker. -/
theorem create_selection_policy :
    (∀ cfg : GcsConfig,
        create cfg = .mocked ↔ cfg.googleAuthenticationFilePath = "MOCKED")
      ∧ (∀ cfg : GcsConfig, cfg.googleAuthenticationFilePath ≠ "MOCKED" →
          cfg.gcsBucket = "" →
          create cfg = .configError "The bucket name should not be empty")
      ∧ (∀ cfg : GcsConfig, cfg.googleAuthenticationFilePath ≠ "MOCKED" →
          cfg.gcsBucket ≠ "" → cfg.googleAuthJson ≠ "" →
          jsStartsWith cfg.googleAuthJson "base64:" = true →
          create cfg
            = .real (.credentialsBase64 (jsSlice cfg.googleAuthJson 7)) cfg.gcsBucket)
      ∧ (∀ cfg : GcsConfig, cfg.googleAuthenticationFilePath ≠ "MOCKED" →
          cfg.gcsBucket ≠ "" → cfg.googleAuthJson ≠ "" →
          jsStartsWith cfg.googleAuthJson "base64:" = false →
          create cfg = .real (.credentialsInline cfg.googleAuthJson) cfg.gcsBucket)
      ∧ (∀ (cfg : GcsConfig) (p : String), cfg.googleAuthJson ≠ "" →
          create cfg ≠ .real (.keyFilename p) cfg.gcsBucket) := by
  refine ⟨?_, ?_, ?_, ?_, ?_⟩
  · intro cfg
    unfold create
    split_ifs <;> simp_all
  · intro cfg h1 h2
    unfold create
    split_ifs <;> simp_all
  · intro cfg h1 h2 h3 h4
    unfold create
    split_ifs <;> simp_all
  · intro cfg h1 h2 h3 h4
    unfold create
    split_ifs <;> simp_all
  · intro cfg p h3
    unfold create
    split_ifs <;> simp_all

/-- C6 witness: the factory evaluated at concrete configurations — the mock
sentinel, an empty bucket, base64-marked inline credentials, and plain
inline credentials. -/
theorem create_selection_policy_witness :
    create ⟨"MOCKED", "", ""⟩ = .mocked
      ∧ create ⟨"/etc/creds.json", "", ""⟩
          = .configError "The bucket name should not be empty"
      ∧ create ⟨"/etc/creds.json", "base64:eyJ9", "profiler-bucket"⟩
          = .real (.credentialsBase64 (jsSlice "base64:eyJ9" 7)) "profiler-bucket"
      ∧ create ⟨"/etc/creds.json", "{}", "profiler-bucket"⟩
          = .real (.credentialsInline "{}") "profiler-bucket" :=
  ⟨(create_selection_policy.1 ⟨"MOCKED", "", ""⟩).mpr rfl,
   create_selection_policy.2.1 ⟨"/etc/creds.json", "", ""⟩ (by decide) rfl,
   create_selection_policy.2.2.1 ⟨"/etc/creds.json", "base64:eyJ9", "profiler-bucket"⟩
     (by decide) (by decide) (by decide) (by decide),
   create_selection_policy.2.2.2.1 ⟨"/etc/creds.json", "{}", "profiler-bucket"⟩
     (by decide) (by decide) (by decide) (by decide)⟩

/-- C7: for the mock backend, ping always succeeds, readFile returns an
empty result on every key, the write sink accepts every chunk without error,
deleteFile always succeeds, getPostUploadURLForFile always fails; and since
writes are not persisted, expanding a short URL produced by a mock shorten
yields the empty string, not the written long URL. -/
theorem mockGcsStorage_spec :
    MockGcsStorage.ping = .ok ()
      ∧ (∀ key, MockGcsStorage.readFile key = .ok "")
      ∧ (∀ chunk, MockGcsStorage.sinkWrite chunk = .ok ())
      ∧ (∀ key, MockGcsStorage.deleteFile key = .ok ())
      ∧ (∀ key origin, MockGcsStorage.getPostUploadURLForFile key origin = .error .noURL)
      ∧ (∀ (src : Nat → Nat) (longUrl : String),
          (expandUrlGcs MockGcsStorage.readFile (shortenUrlGcsMock src longUrl)).1
            = .ok "") := by
  refine ⟨rfl, fun _ => rfl, fun _ => rfl, fun _ => rfl, fun _ _ => rfl, ?_⟩
  intro src longUrl
  show (expandUrlGcs _ (shortUrlOrigin ++ "/s/" ++ generateTokenForProfile src)).1 = _
  rw [expandUrlGcs_wellFormed _ _ (generateTokenForProfile_length src)
    (slash_not_mem_generateTokenForProfile src)]
  rfl

/-- C8: on the real backend, readFile fails with the NotFound error whenever
the object for the given key is absent; consequently expand called with a
well-formed 39-character token that was never shortened fails with the
NotFound error. -/
theorem readFile_and_expand_notFound :
    (∀ (bucket : Store) (key : String), Store.find bucket key = none →
        RealGcsStorage.readFile bucket key = .error (.notFound key))
      ∧ (∀ (bucket : Store) (token : String), token.length = 39 →
          (∀ c ∈ token.toList, c ∈ base32Alphabet) →
          Store.find bucket (token ++ ".url") = none →
          (expandUrlGcsReal bucket token).1 = .error (.notFound (token ++ ".url"))) := by
  constructor
  · intro bucket key h
    simp [RealGcsStorage.readFile, h]
  · intro bucket token h39 halpha hfind
    have hs : '/' ∉ token.toList := fun hmem => by
      have hm := halpha '/' hmem
      revert hm
      decide
    show (expandUrlGcs _ _).1 = _
    rw [expandUrlGcs_bareToken _ _ h39 hs]
    simp [RealGcsStorage.readFile, hfind]

/-- C8 witness: reading a missing key from an empty bucket, and expanding a
well-formed 39-character token that was never shortened, both report
NotFound. -/
theorem readFile_and_expand_notFound_witness :
    RealGcsStorage.readFile [] "nosuchkey" = .error (.notFound "nosuchkey")
      ∧ (expandUrlGcsReal [] "aaaaaaaaaaaaaaaaaaaaaaaaaaaaaaaaaaaaaaa").1
          = .error (.notFound ("aaaaaaaaaaaaaaaaaaaaaaaaaaaaaaaaaaaaaaa" ++ ".url")) :=
  ⟨readFile_and_expand_notFound.1 [] "nosuchkey" rfl,
   readFile_and_expand_notFound.2 [] "aaaaaaaaaaaaaaaaaaaaaaaaaaaaaaaaaaaaaaa"
     (by decide) (by decide) rfl⟩

/-- C9: splitting any string on '/' yields a non-empty list, so the branch
of expand handling an undefined extracted token (which would raise a
TypeError dereferencing the length of undefined) is unreachable: expand over
the real backend never produces the TypeError outcome. -/
theorem undefined_token_branch_unreachable :
    (∀ s : String, splitOnChar '/' s.toList ≠ [])
      ∧ (∀ (bucket : Store) (s : String),
          (expandUrlGcsReal bucket s).1 ≠ .error .typeError) := by
  refine ⟨fun s => splitOnChar_ne_nil '/' s.toList, ?_⟩
  intro bucket s
  obtain ⟨l, hl⟩ := getLast?_isSome_of_ne_nil _ (splitOnChar_ne_nil '/' s.toList)
  simp only [expandUrlGcsReal, expandUrlGcs, hl]
  split
  · simp
  · simp only [RealGcsStorage.readFile]
    cases hf : Store.find bucket (String.mk l ++ ".url") <;> simp

/-- C10: expand validates only the length of the extracted token, never its
alphabet: for every input whose final '/'-delimited segment has exactly 39
characters — whatever those characters are — expand proceeds to read the
storage key formed by that segment concatenated with ".url". -/
theorem expand_reads_every_39_char_segment
    (readFile : String → Except GcsError String) (s : String)
    (h : (lastSegment s).length = 39) :
    expandUrlGcs readFile s
      = (readFile (String.mk (lastSegment s) ++ ".url"),
         [String.mk (lastSegment s) ++ ".url"]) := by
  obtain ⟨l, hl⟩ := getLast?_isSome_of_ne_nil _ (splitOnChar_ne_nil '/' s.toList)
  have hseg : lastSegment s = l := by
    unfold lastSegment
    rw [List.getLastD_eq_getLast?, hl]
    rfl
  rw [hseg] at h ⊢
  simp only [expandUrlGcs, hl]
  rw [if_neg (show ¬(String.mk l).length ≠ 39 from fun hc => hc h)]

/-- C10 witness: a concrete URL whose final segment is 39 dots — characters
far outside the base-32 alphabet — is still looked up under the key formed
from that segment. -/
theorem expand_reads_every_39_char_segment_witness :
    (lastSegment "x/.......................................").length = 39
      ∧ expandUrlGcs MockGcsStorage.readFile "x/......................................."
          = (MockGcsStorage.readFile
              (String.mk (lastSegment "x/.......................................") ++ ".url"),
             [String.mk (lastSegment "x/.......................................") ++ ".url"]) :=
  ⟨by decide,
   expand_reads_every_39_char_segment MockGcsStorage.readFile
     "x/......................................." (by decide)⟩

end FxProfiler
